import Mathlib

/-!
Shallow embedding of the rqoi codec (src/src/lib.rs).

Bytes are modelled as natural numbers; every u8 operation of the source is
made explicit with modulo-256 arithmetic. A byte source is a `List Nat`
consumed from the front; a pixel sink is the returned `List Rgba`.
-/

/-- Wrapping u8 addition, as in u8::wrapping_add. -/
def wadd (a b : Nat) : Nat := (a + b) % 256

/-- Wrapping u8 subtraction, as in u8::wrapping_sub. -/
def wsub (a b : Nat) : Nat := (a % 256 + (256 - b % 256)) % 256

/-- Wrapping u8 multiplication, as in u8::wrapping_mul. -/
def wmul (a b : Nat) : Nat := a * b % 256

/-- Color with four 8-bit channels, mirroring struct Rgba of the source. -/
structure Rgba where
  red : Nat
  green : Nat
  blue : Nat
  alpha : Nat
deriving DecidableEq, Repr

/-- Rgba::zero of the source: fully transparent black. -/
def Rgba.zero : Rgba := ⟨0, 0, 0, 0⟩

/-- Rgba::new of the source: opaque black. -/
def Rgba.new : Rgba := ⟨0, 0, 0, 255⟩

/-- Rgba::hash_index of the source: wrapping u8 arithmetic throughout, then
wrapping_rem 64 (which on u8 is plain remainder). -/
def Rgba.hash_index (c : Rgba) : Nat :=
  wadd (wadd (wadd (wmul c.red 3) (wmul c.green 5)) (wmul c.blue 7)) (wmul c.alpha 11) % 64

/-- Channel-count tag, mirroring enum Channels of the source. -/
inductive Channels
  | Rgb
  | Rgba
deriving DecidableEq, Repr

/-- Discriminant values of enum Channels (Rgb = 3, Rgba = 4). -/
def Channels.toU8 : Channels → Nat
  | .Rgb => 3
  | .Rgba => 4

/-- TryFrom u8 for Channels in the source. -/
def Channels.tryFrom (value : Nat) : Option Channels :=
  if value = 3 then some .Rgb
  else if value = 4 then some .Rgba
  else none

/-- Colorspace tag, mirroring enum ColorSpace of the source. -/
inductive ColorSpace
  | SRgbWithLinearAlpha
  | FullLinear
deriving DecidableEq, Repr

/-- Discriminant values of enum ColorSpace (0 and 1). -/
def ColorSpace.toU8 : ColorSpace → Nat
  | .SRgbWithLinearAlpha => 0
  | .FullLinear => 1

/-- TryFrom u8 for ColorSpace in the source. -/
def ColorSpace.tryFrom (value : Nat) : Option ColorSpace :=
  if value = 0 then some .SRgbWithLinearAlpha
  else if value = 1 then some .FullLinear
  else none

/-- Image header, mirroring struct Header of the source. -/
structure Header where
  width : Nat
  height : Nat
  channels : Channels
  colorspace : ColorSpace
deriving DecidableEq, Repr

/-- The bytes of MAGIC_STRING "qoif". -/
def MAGIC : List Nat := [113, 111, 105, 102]

/-- u32::from_be_bytes on four byte values. -/
def u32_from_be_bytes (b0 b1 b2 b3 : Nat) : Nat :=
  ((b0 * 256 + b1) * 256 + b2) * 256 + b3

/-- Header::decode of the source. The source builds each u32 with the array
expression [source.next()?; 4], whose operand Rust evaluates once and copies
four times, so one byte is consumed per dimension and repeated in all four
big-endian positions. Returns the parsed header and the unconsumed rest. -/
def Header.decode (source : List Nat) : Option (Header × List Nat) :=
  if source.take 4 = MAGIC then
    match source.drop 4 with
    | wb :: hb :: cb :: sb :: rest =>
      match Channels.tryFrom cb, ColorSpace.tryFrom sb with
      | some ch, some cs =>
        some ({ width := u32_from_be_bytes wb wb wb wb,
                height := u32_from_be_bytes hb hb hb hb,
                channels := ch, colorspace := cs }, rest)
      | _, _ => none
    | _ => none
  else none

/-- Header::encode of the source: magic, big-endian width, the height bytes
each XORed with 0xff (as written in the source), channel and colorspace tags.
Each entry is truncated to u8 by the as-cast. -/
def Header.encode (h : Header) : List Nat :=
  [113, 111, 105, 102,
   h.width / 2 ^ 24 % 256, h.width / 2 ^ 16 % 256, h.width / 2 ^ 8 % 256, h.width % 256,
   Nat.xor (h.height / 2 ^ 24) 255 % 256, Nat.xor (h.height / 2 ^ 16) 255 % 256,
   Nat.xor (h.height / 2 ^ 8) 255 % 256, Nat.xor h.height 255 % 256,
   h.channels.toU8, h.colorspace.toU8]

/-- Decoder/encoder state, mirroring struct Data of the source:
the previous pixel and the 64-slot pixel cache. -/
structure Data where
  last_seen_pixel : Rgba
  stored_pixels : List Rgba
deriving DecidableEq, Repr

/-- Data::new of the source: zero previous pixel, 64 zero-filled slots. -/
def Data.new : Data := ⟨Rgba.zero, List.replicate 64 Rgba.zero⟩

/-- Read of stored_pixels[i]. In the source the index chunk guarantees the
index is below 64; out-of-range reads (impossible there) default to zero. -/
def Data.lookup (d : Data) (i : Nat) : Rgba :=
  d.stored_pixels.getD i Rgba.zero

/-- Store of the pixel-cache component (spec section 4.2): write the color
into slot hash_index(color). The source decoder never performs this write. -/
def Data.store (d : Data) (c : Rgba) : Data :=
  { d with stored_pixels := d.stored_pixels.set c.hash_index c }

/-- Decode errors, mirroring enum DecodeError of the source. -/
inductive DecodeError
  | MissingTerminator
  | Header
  | IllegalRun
  | ConsecutiveIndex
  | OutOfBytes
  | UnknownTag
deriving DecidableEq, Repr

/-- The helper fn shift of the small-diff arm:
old_value.wrapping_add((read_byte >> shift ^ 0b11).wrapping_sub(2)). -/
def shift_helper (old_value read_byte s : Nat) : Nat :=
  wadd old_value (wsub (Nat.xor (read_byte >>> s) 3) 2)

/-- Prepend one decoded pixel to the output of the remaining loop. -/
def pushPixel (value : Rgba) :
    Except DecodeError (Data × List Rgba) → Except DecodeError (Data × List Rgba)
  | .ok (d, out) => .ok (d, value :: out)
  | .error e => .error e

/-- The decode loop of Data::decode_into, one tag byte per iteration, in the
source's match-arm order. Notes on fidelity to the source:
the luma arm's masks are the hexadecimal literals 0x0011_1111 and 0x1111
exactly as written there (not the binary masks 0b111111 and 0b1111), and its
channel additions use the unchecked + operator, modelled here with
release-mode wrapping semantics; when the luma second byte is missing the
source's if-let has no else branch, so the iteration falls through and the
loop then terminates normally on the exhausted source. The loop never looks
for the 8-byte terminator and never writes stored_pixels. -/
def decodeChunks : List Nat → Data → Except DecodeError (Data × List Rgba)
  | [], d => .ok (d, [])
  | byte :: rest, d =>
    if byte = 254 then
      match rest with
      | r :: g :: b :: rest2 =>
        let value : Rgba := ⟨r, g, b, d.last_seen_pixel.alpha⟩
        pushPixel value (decodeChunks rest2 { d with last_seen_pixel := value })
      | _ => .error .OutOfBytes
    else if byte = 255 then
      match rest with
      | r :: g :: b :: a :: rest2 =>
        let value : Rgba := ⟨r, g, b, a⟩
        pushPixel value (decodeChunks rest2 { d with last_seen_pixel := value })
      | _ => .error .OutOfBytes
    else if Nat.land byte 192 = 0 then
      let value := d.lookup byte
      pushPixel value (decodeChunks rest { d with last_seen_pixel := value })
    else if Nat.land byte 192 = 64 then
      let p := d.last_seen_pixel
      let value : Rgba := ⟨shift_helper p.red byte 4, shift_helper p.green byte 2,
                           shift_helper p.blue byte 0, p.alpha⟩
      pushPixel value (decodeChunks rest { d with last_seen_pixel := value })
    else if Nat.land byte 192 = 128 then
      match rest with
      | second_byte :: rest2 =>
        let green_diff := wsub (Nat.land byte 0x111111) 32
        let red_diff := wadd (wsub (Nat.land (second_byte >>> 4) 0x1111) 8) green_diff
        let blue_diff := wadd (wsub (Nat.land second_byte 0x1111) 8) green_diff
        let p := d.last_seen_pixel
        let value : Rgba := ⟨wadd p.red red_diff, wadd p.green green_diff,
                             wadd p.blue blue_diff, p.alpha⟩
        pushPixel value (decodeChunks rest2 { d with last_seen_pixel := value })
      | [] => .ok (d, [])
    else if Nat.land byte 192 = 192 then
      match decodeChunks rest d with
      | .ok (d2, out) => .ok (d2, List.replicate (Nat.land byte 63) d.last_seen_pixel ++ out)
      | .error e => .error e
    else .error .UnknownTag

/-- Data::decode_into of the source: parse the header, then run the chunk
loop over the remaining bytes; a header parse failure is DecodeError.Header. -/
def Data.decode_into (d : Data) (source : List Nat) :
    Except DecodeError (Header × List Rgba) :=
  match Header.decode source with
  | some (header, rest) =>
    match decodeChunks rest d with
    | .ok (_, pixels) => .ok (header, pixels)
    | .error e => .error e
  | none => .error .Header

/-- Modelled from the spec: the run-chunk flush of the chunk encoder
(section 4.4), absent from the source; a pending run of n pixels (n in 1..62)
is emitted as the tag byte 0b11 followed by the length field n - 1. -/
def flushRun (run : Nat) : List Nat :=
  if run = 0 then [] else [192 + (run - 1)]

/-- Modelled from the spec: the non-run chunk selection of the chunk encoder
(section 4.4), absent from the source. For a pixel differing from the
previous one, the first applicable of: index chunk, small-diff chunk,
luma chunk, literal-RGB chunk, literal-RGBA chunk. Per-channel deltas are
wrapping u8 differences; a delta fits a biased signed range when its
wrapped value lies in the corresponding low or high band. -/
def chunkFor (d : Data) (px : Rgba) : List Nat :=
  if d.lookup px.hash_index = px then [px.hash_index]
  else
    let p := d.last_seen_pixel
    let dr := wsub px.red p.red
    let dg := wsub px.green p.green
    let db := wsub px.blue p.blue
    if px.alpha = p.alpha ∧ (dr < 2 ∨ 254 ≤ dr) ∧ (dg < 2 ∨ 254 ≤ dg) ∧
        (db < 2 ∨ 254 ≤ db) then
      [64 + (dr + 2) % 256 * 16 + (dg + 2) % 256 * 4 + (db + 2) % 256]
    else
      let drg := wsub dr dg
      let dbg := wsub db dg
      if px.alpha = p.alpha ∧ (dg < 32 ∨ 224 ≤ dg) ∧ (drg < 8 ∨ 248 ≤ drg) ∧
          (dbg < 8 ∨ 248 ≤ dbg) then
        [128 + (dg + 32) % 256, (drg + 8) % 256 * 16 + (dbg + 8) % 256]
      else if px.alpha = p.alpha then
        [254, px.red, px.green, px.blue]
      else
        [255, px.red, px.green, px.blue, px.alpha]

/-- Modelled from the spec: the chunk-encoder loop (section 4.4), absent
from the source. A pixel equal to the previous one extends the open run,
flushing at the 62-pixel limit; any other pixel flushes the open run, emits
its chunk, and updates the previous pixel and the cache; the final open run
is flushed at the end. -/
def encodeChunks : List Rgba → Data → Nat → List Nat
  | [], _, run => flushRun run
  | px :: rest, d, run =>
    if px = d.last_seen_pixel then
      if run + 1 = 62 then flushRun 62 ++ encodeChunks rest d 0
      else encodeChunks rest d (run + 1)
    else
      flushRun run ++ chunkFor d px ++
        encodeChunks rest { d.store px with last_seen_pixel := px } 0

/-- The 8-byte stream terminator: seven zero bytes then one 0x01 byte. -/
def terminatorBytes : List Nat := [0, 0, 0, 0, 0, 0, 0, 1]

/-- Modelled from the spec: the whole-stream encoder (sections 4.4 and 6),
whose chunk side is absent from the source; the header is serialized with
the source's Header::encode, then the chunk stream, then the terminator. -/
def encode (h : Header) (pixels : List Rgba) : List Nat :=
  h.encode ++ encodeChunks pixels Data.new 0 ++ terminatorBytes

/-- Wide-arithmetic hash of the spec's words (section 4.2): the channel
combination computed in unbounded arithmetic with a single final mod 64. -/
def hash_index_wide (c : Rgba) : Nat :=
  (c.red * 3 + c.green * 5 + c.blue * 7 + c.alpha * 11) % 64

/-- C10: Rgba::hash_index, computed with truncating 8-bit wraparound
arithmetic, equals (red*3 + green*5 + blue*7 + alpha*11) mod 64 computed in
wide arithmetic with one final mod 64, for every color; its result lies in
[0,63]; and equal colors hash identically. -/
theorem hash_index_matches_wide (c c' : Rgba) :
    c.hash_index = hash_index_wide c ∧ c.hash_index < 64 ∧
    (c = c' → c.hash_index = c'.hash_index) := by
  refine ⟨?_, ?_, fun h => by rw [h]⟩
  · simp only [Rgba.hash_index, hash_index_wide, wadd, wmul]
    omega
  · exact Nat.mod_lt _ (by norm_num)

/-- Witness for C10 at the concrete color (1,2,3,4). -/
theorem hash_index_matches_wide_witness :
    (Rgba.mk 1 2 3 4).hash_index = hash_index_wide (Rgba.mk 1 2 3 4) ∧
    (Rgba.mk 1 2 3 4).hash_index < 64 ∧
    (Rgba.mk 1 2 3 4).hash_index = (Rgba.mk 1 2 3 4).hash_index :=
  ⟨(hash_index_matches_wide ⟨1, 2, 3, 4⟩ ⟨1, 2, 3, 4⟩).1,
   (hash_index_matches_wide ⟨1, 2, 3, 4⟩ ⟨1, 2, 3, 4⟩).2.1,
   (hash_index_matches_wide ⟨1, 2, 3, 4⟩ ⟨1, 2, 3, 4⟩).2.2 rfl⟩

/-- C6: on the valid 14-byte header qoif, width 1, height 2, channels 4,
colorspace 0, the source's Header::decode fails (it consumes a single byte
for each of width and height, so it reads the channels tag from offset 6,
which holds 0); and on the 8-byte input qoif, 1, 2, 4, 0 it succeeds with
width 16843009 and height 33686018 (each dimension one byte repeated in all
four big-endian positions), contradicting the claimed byte layout. -/
theorem header_decode_repeats_one_byte :
    Header.decode (MAGIC ++ [0, 0, 0, 1, 0, 0, 0, 2, 4, 0]) = none ∧
    Header.decode (MAGIC ++ [1, 2, 4, 0]) =
      some (⟨16843009, 33686018, Channels.Rgba, ColorSpace.SRgbWithLinearAlpha⟩, []) :=
  ⟨rfl, rfl⟩

/-- C7: Header::encode of width 1, height 2, RGBA, sRGB emits the height
bytes XORed with 0xff (255, 255, 255, 253), not the claimed big-endian
height bytes (0, 0, 0, 2). -/
theorem header_encode_complements_height :
    Header.encode ⟨1, 2, Channels.Rgba, ColorSpace.SRgbWithLinearAlpha⟩ =
      [113, 111, 105, 102, 0, 0, 0, 1, 255, 255, 255, 253, 4, 0] ∧
    ([113, 111, 105, 102, 0, 0, 0, 1, 255, 255, 255, 253, 4, 0] : List Nat) ≠
      [113, 111, 105, 102, 0, 0, 0, 1, 0, 0, 0, 2, 4, 0] :=
  ⟨rfl, by decide⟩

/-- C4: on the small-diff chunk 0b01000000 from the initial state, the
decoder produces (5, 17, 65, 0): each field is XORed with 3 instead of being
masked to two bits, so the result is not the claim formula's value
(254, 254, 254, 0). -/
theorem small_diff_xors_instead_of_masking :
    decodeChunks [64] Data.new =
      .ok (⟨⟨5, 17, 65, 0⟩, List.replicate 64 Rgba.zero⟩, [⟨5, 17, 65, 0⟩]) ∧
    (⟨5, 17, 65, 0⟩ : Rgba) ≠ ⟨254, 254, 254, 0⟩ :=
  ⟨rfl, by decide⟩

/-- C5: on the luma chunk 0b10100000 followed by 0x00 from the initial
state, the decoder produces (216, 224, 216, 0): the source masks the tag
with hexadecimal 0x111111 and the second byte's fields with hexadecimal
0x1111, so the result is not the claim formula's value (248, 0, 248, 0). -/
theorem luma_uses_hex_masks :
    decodeChunks [160, 0] Data.new =
      .ok (⟨⟨216, 224, 216, 0⟩, List.replicate 64 Rgba.zero⟩, [⟨216, 224, 216, 0⟩]) ∧
    (⟨216, 224, 216, 0⟩ : Rgba) ≠ ⟨248, 0, 248, 0⟩ :=
  ⟨rfl, by decide⟩

/-- C3: a run chunk emits the previous pixel exactly xxxxxx times, without
the claimed + 1 bias: tag 0xC0 (field 0) emits no pixel at all and tag 0xC5
(field 5) emits five pixels; the state is left unchanged in both cases. -/
theorem run_emits_field_without_bias :
    decodeChunks [192] Data.new = .ok (Data.new, []) ∧
    decodeChunks [197] Data.new = .ok (Data.new, List.replicate 5 Rgba.zero) :=
  ⟨rfl, rfl⟩

/-- C2: after decoding the literal-RGBA chunk for the color (1, 2, 3, 4)
from the initial state, the previous pixel is updated but stored_pixels is
untouched (still 64 zero colors), so the cache lookup at
hash_index (1, 2, 3, 4) = 14 returns the zero color, not (1, 2, 3, 4). -/
theorem literal_rgba_never_stores_in_cache :
    decodeChunks [255, 1, 2, 3, 4] Data.new =
      .ok (⟨⟨1, 2, 3, 4⟩, List.replicate 64 Rgba.zero⟩, [⟨1, 2, 3, 4⟩]) ∧
    Data.lookup ⟨⟨1, 2, 3, 4⟩, List.replicate 64 Rgba.zero⟩
        (Rgba.hash_index ⟨1, 2, 3, 4⟩) ≠ ⟨1, 2, 3, 4⟩ :=
  ⟨rfl, by decide⟩

/-- C8: the decode loop never looks for the 8-byte terminator: a valid
header followed by one literal-RGBA chunk and nothing else decodes to Ok
instead of a MissingTerminator error, and when the terminator bytes are
present they are themselves decoded as eight index chunks, emitting eight
extra pixels. -/
theorem decode_ignores_terminator :
    Data.decode_into Data.new [113, 111, 105, 102, 0, 0, 4, 0, 255, 1, 2, 3, 4] =
      .ok (⟨0, 0, Channels.Rgba, ColorSpace.SRgbWithLinearAlpha⟩, [⟨1, 2, 3, 4⟩]) ∧
    Data.decode_into Data.new
        ([113, 111, 105, 102, 0, 0, 4, 0, 255, 1, 2, 3, 4] ++ terminatorBytes) =
      .ok (⟨0, 0, Channels.Rgba, ColorSpace.SRgbWithLinearAlpha⟩,
        ⟨1, 2, 3, 4⟩ :: List.replicate 8 Rgba.zero) :=
  ⟨rfl, rfl⟩

/-- C9: a luma chunk whose second byte is missing is silently skipped (the
source's if-let has no else branch), so decode returns Ok with no pixels
instead of a truncation error; a truncated literal-RGBA chunk does fail
with OutOfBytes. -/
theorem truncated_luma_silently_ignored :
    Data.decode_into Data.new [113, 111, 105, 102, 0, 0, 4, 0, 128] =
      .ok (⟨0, 0, Channels.Rgba, ColorSpace.SRgbWithLinearAlpha⟩, []) ∧
    Data.decode_into Data.new [113, 111, 105, 102, 0, 0, 4, 0, 255, 1, 2] =
      .error DecodeError.OutOfBytes :=
  ⟨rfl, rfl⟩

/-- C1: the encode/decode round trip fails on the spec's own concrete
scenario (header 1 by 1, RGBA, sRGB, single pixel (10, 20, 30, 255)):
decoding the encoded stream yields a Header error, not the original header
and pixel, because Header::decode consumes one byte per dimension and
Header::encode complements the height bytes. -/
theorem roundtrip_single_pixel_fails :
    Data.decode_into Data.new
        (encode ⟨1, 1, Channels.Rgba, ColorSpace.SRgbWithLinearAlpha⟩ [⟨10, 20, 30, 255⟩]) =
      .error DecodeError.Header ∧
    (Except.error DecodeError.Header :
        Except DecodeError (Header × List Rgba)) ≠
      .ok (⟨1, 1, Channels.Rgba, ColorSpace.SRgbWithLinearAlpha⟩, [⟨10, 20, 30, 255⟩]) :=
  ⟨rfl, by simp⟩
